import Mathlib

/-!
# Verification of the truck-charging site-selection engine

Shallow embedding, in Lean 4, of the scoring-and-selection core of the
`secondary-dash` repository (`src/selector.py`, class
`TruckChargingSiteSelector`), together with proofs about its behaviour.

Modelling conventions:

* pandas `Series`/columns become `List ℚ`; a column that may be absent from
  the frame becomes `Option (List ℚ)` (`none` = "column not in `df.columns`").
  Cell values are finite rationals; where the source applies `.fillna(0)` or
  `pd.to_numeric(..., errors='coerce').fillna(0)` to such cells the operation
  is the identity and is noted at the use site.
* Python weight dicts become association lists `List (String × Option ℚ)`;
  a value `none` models Python `None` (null).  Lookup takes the first match,
  which agrees with dict lookup (dict keys are unique).
* All definitions are executable; theorems are stated over them.
-/

namespace SecondaryDash

/-- A possibly-absent numeric column of the region table. -/
abbrev Col := Option (List ℚ)

/-- A Python weight dictionary: keys with numeric (`some q`) or null (`none`)
values. -/
abbrev WDict := List (String × Option ℚ)

namespace WDict

/-- Dict membership test (`k in weights`). -/
def hasKey (w : WDict) (k : String) : Bool :=
  w.any (fun kv => kv.1 = k)

/-- `weights.get(k)` — the stored value (`none` if the key is absent,
`some none` if it is present with a null value). -/
def find (w : WDict) (k : String) : Option (Option ℚ) :=
  (w.find? (fun kv => kv.1 = k)).map (fun kv => kv.2)

/-- Numeric lookup used where the source indexes the dict and multiplies by a
series: the value when the key is present and numeric, otherwise the given
default.  (A present-but-null value reads as 0 here; in the source a null
weight would fault on the subsequent multiplication, a case that never occurs
in this application's configurations.) -/
def get (w : WDict) (k : String) (d : ℚ) : ℚ :=
  match w.find? (fun kv => kv.1 = k) with
  | some (_, some v) => v
  | some (_, none) => 0
  | none => d

/-- `sum(float(v or 0) for v in weights.values())` — the scale used by the
category scorers' "all component weights are zero" disable check. -/
def sumOr0 (w : WDict) : ℚ :=
  (w.map (fun kv => kv.2.getD 0)).sum

/-- Sum of the non-null values only (the scale-detection sum of
`_normalize_weight_dict`). -/
def nonNullSum (w : WDict) : ℚ :=
  (w.filterMap (fun kv => kv.2)).sum

end WDict

/-- `TruckChargingSiteSelector._normalize_weight_dict`: returns the dict
unchanged when the non-null values sum to 0 or to at most 1.5, otherwise
divides every non-null value by that sum and maps null values to 0. -/
def normalizeWeightDict (w : WDict) : WDict :=
  if w = [] then []
  else
    let s := WDict.nonNullSum w
    if s = 0 then w
    else if s ≤ 3/2 then w
    else w.map (fun kv =>
      (kv.1, some (match kv.2 with
        | some v => v / s
        | none => 0)))

/-- `TruckChargingSiteSelector._is_group_disabled`: `true` exactly when every
key of the group is present in the dict with a numeric value and those values
sum to 0.  (A missing key, or a null value — on which the source's
`float(v)` raises and the handler returns `False` — yields `false`.) -/
def isGroupDisabled (w : WDict) (keys : List String) : Bool :=
  match keys.mapM (fun k => ((w.find? (fun kv => kv.1 = k)).bind (fun kv => kv.2))) with
  | some vals => decide (vals.sum = 0)
  | none => false

/-- `TruckChargingSiteSelector._normalize_weight_group`: reads each key with
its positional default (used when the key is missing or its value is null,
on which the source's `float` raises and the handler substitutes the
default), then normalizes to sum 1; an all-zero group falls back to the
defaults, and an all-zero default list to equal weights over
`max 1 (defaults.length)` slots. -/
def normalizeWeightGroup (w : WDict) (keys : List String) (defaults : List ℚ) :
    List ℚ :=
  let vals := (keys.zip defaults).map (fun kd =>
    match w.find? (fun kv => kv.1 = kd.1) with
    | some (_, some v) => v
    | some (_, none) => kd.2
    | none => kd.2)
  let s := vals.sum
  if s = 0 then
    let s' := defaults.sum
    if s' = 0 then
      let n := max 1 defaults.length
      List.replicate n (1 / (n : ℚ))
    else defaults.map (fun d => d / s')
  else vals.map (fun v => v / s)

/-- The values of a weight dict after `_normalize_weight_dict`, read as
numbers (nulls as 0) — used to state that the rescaled dict sums to 1. -/
def dictValuesSum (w : WDict) : ℚ :=
  (w.map (fun kv => kv.2.getD 0)).sum

theorem list_sum_map_div (l : List ℚ) (s : ℚ) :
    (l.map (fun v => v / s)).sum = l.sum / s := by
  induction l with
  | nil => simp
  | cons h t ih => simp [ih, add_div]

theorem wdict_sum_scale (w : WDict) (s : ℚ) :
    (w.map (fun kv => (match kv.2 with | some v => v / s | none => (0:ℚ)))).sum
      = WDict.nonNullSum w / s := by
  induction w with
  | nil => simp [WDict.nonNullSum]
  | cons kv t ih =>
    obtain ⟨k, v⟩ := kv
    cases v with
    | none =>
      simpa [WDict.nonNullSum, List.filterMap_cons] using ih
    | some q =>
      simp only [WDict.nonNullSum, List.filterMap_cons, List.map_cons,
        List.sum_cons] at ih ⊢
      rw [ih, add_div]

theorem map_snd_zip_of_length_eq {α β : Type} (l₁ : List α) (l₂ : List β)
    (h : l₁.length = l₂.length) : (l₁.zip l₂).map Prod.snd = l₂ := by
  induction l₁ generalizing l₂ with
  | nil =>
    cases l₂ with
    | nil => rfl
    | cons b t => simp at h
  | cons a t ih =>
    cases l₂ with
    | nil => simp at h
    | cons b t₂ =>
      simp only [List.zip_cons_cons, List.map_cons]
      rw [ih t₂ (by simpa using h)]

theorem normalizeWeightDict_eq (w : WDict) :
    normalizeWeightDict w =
      if w = [] then []
      else if WDict.nonNullSum w = 0 then w
      else if WDict.nonNullSum w ≤ 3/2 then w
      else w.map (fun kv => (kv.1, some (match kv.2 with
        | some v => v / WDict.nonNullSum w
        | none => 0))) := rfl

theorem normalizeWeightGroup_eq (w : WDict) (keys : List String)
    (defaults : List ℚ) :
    normalizeWeightGroup w keys defaults =
      (if ((keys.zip defaults).map (fun kd =>
          match w.find? (fun kv => kv.1 = kd.1) with
          | some (_, some v) => v
          | some (_, none) => kd.2
          | none => kd.2)).sum = 0 then
        (if defaults.sum = 0 then
          List.replicate (max 1 defaults.length)
            (1 / ((max 1 defaults.length : ℕ) : ℚ))
        else defaults.map (fun d => d / defaults.sum))
      else ((keys.zip defaults).map (fun kd =>
          match w.find? (fun kv => kv.1 = kd.1) with
          | some (_, some v) => v
          | some (_, none) => kd.2
          | none => kd.2)).map (fun v => v /
            ((keys.zip defaults).map (fun kd =>
              match w.find? (fun kv => kv.1 = kd.1) with
              | some (_, some v) => v
              | some (_, none) => kd.2
              | none => kd.2)).sum)) := rfl

/-- **C8.** `_normalize_weight_dict` is the identity on any weight mapping
whose non-null values sum to at most 1.5; on a mapping whose non-null values
sum to more than 1.5 it divides every non-null value by that sum (null
values become 0) and the resulting values sum to exactly 1. -/
theorem C8_normalize_weight_dict (w : WDict) :
    (WDict.nonNullSum w ≤ 3/2 → normalizeWeightDict w = w) ∧
    (3/2 < WDict.nonNullSum w →
      normalizeWeightDict w =
        w.map (fun kv => (kv.1, some (match kv.2 with
          | some v => v / WDict.nonNullSum w
          | none => 0))) ∧
      dictValuesSum (normalizeWeightDict w) = 1) := by
  constructor
  · intro hle
    rw [normalizeWeightDict_eq]
    by_cases hne : w = []
    · rw [if_pos hne, hne]
    · rw [if_neg hne]
      by_cases hs0 : WDict.nonNullSum w = 0
      · rw [if_pos hs0]
      · rw [if_neg hs0, if_pos hle]
  · intro hgt
    have hne : w ≠ [] := by
      intro h
      rw [h] at hgt
      simp [WDict.nonNullSum] at hgt
      exact absurd hgt (by norm_num)
    have hs0 : WDict.nonNullSum w ≠ 0 := by
      intro h
      rw [h] at hgt
      exact absurd hgt (by norm_num)
    have hsle : ¬ (WDict.nonNullSum w ≤ 3/2) := not_le.mpr hgt
    have heq : normalizeWeightDict w =
        w.map (fun kv => (kv.1, some (match kv.2 with
          | some v => v / WDict.nonNullSum w
          | none => 0))) := by
      rw [normalizeWeightDict_eq, if_neg hne, if_neg hs0, if_neg hsle]
    refine ⟨heq, ?_⟩
    rw [heq]
    unfold dictValuesSum
    rw [List.map_map]
    have hmap : (w.map ((fun kv : String × Option ℚ => kv.2.getD 0) ∘
        (fun kv : String × Option ℚ => (kv.1, some (match kv.2 with
          | some v => v / WDict.nonNullSum w
          | none => 0)))))
        = w.map (fun kv => (match kv.2 with
          | some v => v / WDict.nonNullSum w
          | none => (0:ℚ))) := by
      apply List.map_congr_left
      intro kv _
      obtain ⟨k, v⟩ := kv
      cases v <;> rfl
    rw [hmap, wdict_sum_scale, div_self hs0]

/-- **C9.** `_is_group_disabled` is `true` iff every key of the group is
present in the dict with a numeric value and those values sum to exactly 0;
`_normalize_weight_group` always returns a tuple summing to 1 (it never
divides by zero or raises); and when none of the group's keys is present it
falls back to the positional defaults (normalized, with the equal-weights
last resort when the defaults sum to 0). -/
theorem C9_group_disabled_and_normalize_group :
    (∀ (w : WDict) (keys : List String),
      isGroupDisabled w keys = true ↔
        ∃ vals : List ℚ,
          keys.mapM (fun k =>
            ((w.find? (fun kv => kv.1 = k)).bind (fun kv => kv.2))) = some vals ∧
          vals.sum = 0) ∧
    (∀ (w : WDict) (keys : List String) (defaults : List ℚ),
      (normalizeWeightGroup w keys defaults).sum = 1) ∧
    (∀ (w : WDict) (keys : List String) (defaults : List ℚ),
      keys.length = defaults.length →
      (∀ k ∈ keys, WDict.hasKey w k = false) →
      normalizeWeightGroup w keys defaults =
        (if defaults.sum = 0 then
          List.replicate (max 1 defaults.length)
            (1 / ((max 1 defaults.length : ℕ) : ℚ))
        else defaults.map (fun d => d / defaults.sum))) := by
  refine ⟨?_, ?_, ?_⟩
  · intro w keys
    unfold isGroupDisabled
    cases h : keys.mapM (fun k =>
        ((w.find? (fun kv => kv.1 = k)).bind (fun kv => kv.2))) with
    | none => simp
    | some vals => simp
  · intro w keys defaults
    rw [normalizeWeightGroup_eq]
    set vals := (keys.zip defaults).map (fun kd =>
      match w.find? (fun kv => kv.1 = kd.1) with
      | some (_, some v) => v
      | some (_, none) => kd.2
      | none => kd.2) with hvals
    by_cases hs : vals.sum = 0
    · rw [if_pos hs]
      by_cases hs' : defaults.sum = 0
      · rw [if_pos hs']
        rw [List.sum_replicate, nsmul_eq_mul]
        rw [mul_one_div, div_self]
        exact_mod_cast (by omega : max 1 defaults.length ≠ 0)
      · rw [if_neg hs', list_sum_map_div, div_self hs']
    · rw [if_neg hs, list_sum_map_div, div_self hs]
  · intro w keys defaults hlen hmiss
    have hnone : ∀ k ∈ keys, w.find? (fun kv => kv.1 = k) = none := by
      intro k hk
      have h := hmiss k hk
      rw [List.find?_eq_none]
      intro kv hkv
      simp only [WDict.hasKey, List.any_eq_false] at h
      exact h kv hkv
    rw [normalizeWeightGroup_eq]
    have hvals : (keys.zip defaults).map (fun kd =>
        match w.find? (fun kv => kv.1 = kd.1) with
        | some (_, some v) => v
        | some (_, none) => kd.2
        | none => kd.2) = defaults := by
      have hcong : (keys.zip defaults).map (fun kd =>
          match w.find? (fun kv => kv.1 = kd.1) with
          | some (_, some v) => v
          | some (_, none) => kd.2
          | none => kd.2) = (keys.zip defaults).map Prod.snd := by
        apply List.map_congr_left
        intro kd hkd
        obtain ⟨a, b⟩ := kd
        have hk1 : a ∈ keys := (List.of_mem_zip hkd).1
        dsimp only
        rw [hnone a hk1]
      rw [hcong, map_snd_zip_of_length_eq keys defaults hlen]
    rw [hvals]
    by_cases hs : defaults.sum = 0
    · rw [if_pos hs]
    · rw [if_neg hs, if_neg hs]

/-- Witness for C8 at concrete inputs: an already-fractional dict
(the default demand component weights) is returned unchanged, and a
points-scale dict (summing to 100, with one null entry) is rescaled to
values summing to 1. -/
theorem C8_witness :
    WDict.nonNullSum
      [("purpose", some (7/20)), ("day_of_week", some (1/4)),
       ("equity_trips", some (1/5)), ("temporal_pattern", some (1/5))] ≤ 3/2 ∧
    normalizeWeightDict
      [("purpose", some (7/20)), ("day_of_week", some (1/4)),
       ("equity_trips", some (1/5)), ("temporal_pattern", some (1/5))] =
      [("purpose", some (7/20)), ("day_of_week", some (1/4)),
       ("equity_trips", some (1/5)), ("temporal_pattern", some (1/5))] ∧
    (3/2 : ℚ) < WDict.nonNullSum
      [("home_end_weight", some 40), ("workplace_end_weight", some 40),
       ("other_end_weight", some 20), ("unused", none)] ∧
    dictValuesSum (normalizeWeightDict
      [("home_end_weight", some 40), ("workplace_end_weight", some 40),
       ("other_end_weight", some 20), ("unused", none)]) = 1 := by
  have h1 : WDict.nonNullSum
      [("purpose", some ((7:ℚ)/20)), ("day_of_week", some (1/4)),
       ("equity_trips", some (1/5)), ("temporal_pattern", some (1/5))] ≤ 3/2 := by
    simp only [WDict.nonNullSum, List.filterMap_cons, List.filterMap_nil,
      List.sum_cons, List.sum_nil]
    norm_num
  have h2 : (3/2 : ℚ) < WDict.nonNullSum
      [("home_end_weight", some 40), ("workplace_end_weight", some 40),
       ("other_end_weight", some 20), ("unused", none)] := by
    simp only [WDict.nonNullSum, List.filterMap_cons, List.filterMap_nil,
      List.sum_cons, List.sum_nil]
    norm_num
  exact ⟨h1, (C8_normalize_weight_dict _).1 h1, h2,
    ((C8_normalize_weight_dict _).2 h2).2⟩

/-- Witness for C9 at concrete inputs: a group with all keys present summing
to 0 is disabled; the same group missing one key is not; and a dict
containing none of the group's keys normalizes to the positional defaults. -/
theorem C9_witness :
    (isGroupDisabled [("weekday_weight", some 0), ("weekend_weight", some 0)]
        ["weekday_weight", "weekend_weight"] = true ↔
      ∃ vals : List ℚ,
        (["weekday_weight", "weekend_weight"].mapM (fun k =>
          (([("weekday_weight", (some 0 : Option ℚ)), ("weekend_weight", some 0)].find?
            (fun kv => kv.1 = k)).bind (fun kv => kv.2)))) = some vals ∧
        vals.sum = 0) ∧
    (normalizeWeightGroup [("weekday_weight", some 0)]
        ["weekday_weight", "weekend_weight"] [7/10, 3/10]).sum = 1 ∧
    (["weekday_weight", "weekend_weight"].length = [(7:ℚ)/10, 3/10].length) ∧
    normalizeWeightGroup [("other", some 1)]
        ["weekday_weight", "weekend_weight"] [7/10, 3/10] =
      (if [(7:ℚ)/10, 3/10].sum = 0 then
        List.replicate (max 1 [(7:ℚ)/10, 3/10].length)
          (1 / ((max 1 [(7:ℚ)/10, 3/10].length : ℕ) : ℚ))
      else [(7:ℚ)/10, 3/10].map (fun d => d / [(7:ℚ)/10, 3/10].sum)) :=
  ⟨C9_group_disabled_and_normalize_group.1 _ _,
   C9_group_disabled_and_normalize_group.2.1 _ _ _,
   by decide,
   C9_group_disabled_and_normalize_group.2.2 _ _ _ (by decide) (by decide)⟩

/-! ## Series helpers

pandas `Series` reductions and the feature normalizers of
`TruckChargingSiteSelector`.  For an empty series pandas yields `NaN` for
`max`/`min`, and every comparison against `NaN` is false; returning 0 here
gives the same branch decisions at every use site (all uses compare the
reduction against a constant or against the other reduction). -/

/-- `series.max()` (0 for the empty series, see module note). -/
def seriesMax (xs : List ℚ) : ℚ :=
  match xs with
  | [] => 0
  | h :: t => t.foldl max h

/-- `series.min()` (0 for the empty series, see module note). -/
def seriesMin (xs : List ℚ) : ℚ :=
  match xs with
  | [] => 0
  | h :: t => t.foldl min h

/-- A column read with `df.get(col, 0)`: the column when present, otherwise
the scalar 0 broadcast over the `n` rows. -/
def colGetD (c : Col) (n : ℕ) : List ℚ :=
  c.getD (List.replicate n 0)

/-- `_normalize_score`: min-max rescale to 0-100; all-zero when the series
is constant (or empty). -/
def normalizeScore (xs : List ℚ) : List ℚ :=
  if seriesMin xs < seriesMax xs then
    xs.map (fun x => 100 * (x - seriesMin xs) / (seriesMax xs - seriesMin xs))
  else xs.map (fun _ => 0)

def insertAsc (x : ℚ) : List ℚ → List ℚ
  | [] => [x]
  | y :: ys => if x ≤ y then x :: y :: ys else y :: insertAsc x ys

def sortAsc (xs : List ℚ) : List ℚ := xs.foldr insertAsc []

/-- `Series.quantile(p)` with pandas' default linear interpolation. -/
def quantileLin (p : ℚ) (xs : List ℚ) : ℚ :=
  let s := sortAsc xs
  if s = [] then 0
  else
    let h : ℚ := p * ((s.length : ℚ) - 1)
    let i : ℕ := (⌊h⌋ : ℤ).toNat
    let g : ℚ := h - (i : ℚ)
    let a := s.getD i 0
    let b := s.getD (i + 1) a
    a + g * (b - a)

/-- `_normalize_score_with_density` with `use_density=True`: divide by the
area column when present (a zero area becomes missing and the resulting
cell 0), clip at the 95th percentile, then min-max rescale; falls back to
`_normalize_score` when the area column is absent. -/
def normalizeScoreWithDensity (xs : List ℚ) (area : Col) : List ℚ :=
  match area with
  | none => normalizeScore xs
  | some ar =>
    let dens := List.zipWith (fun x a => if a = 0 then 0 else x / a) xs ar
    if seriesMin dens < seriesMax dens then
      let p95 := quantileLin (95/100) dens
      let clipped := dens.map (fun d => min d p95)
      if seriesMin clipped < seriesMax clipped then
        clipped.map (fun d =>
          100 * (d - seriesMin clipped) /
            (seriesMax clipped - seriesMin clipped))
      else xs.map (fun _ => 0)
    else xs.map (fun _ => 0)

/-- `scores += component * weight`, elementwise. -/
def addWeighted (scores comp : List ℚ) (wt : ℚ) : List ℚ :=
  List.zipWith (fun s c => s + c * wt) scores comp

/-- `np.clip(xs, 0, 100)` / `Series.clip(0, 100)`. -/
def clip0100 (xs : List ℚ) : List ℚ :=
  xs.map (fun x => min (max x 0) 100)

def zipWith4 {α β γ δ ε : Type} (f : α → β → γ → δ → ε) :
    List α → List β → List γ → List δ → List ε
  | a :: l₁, b :: l₂, c :: l₃, d :: l₄ => f a b c d :: zipWith4 f l₁ l₂ l₃ l₄
  | _, _, _, _ => []

/-! ## Charging-type classifier (`classify_charging_type`) -/

/-- `classify_charging_type`: with the long-distance-share column present,
a region is labelled `long_distance` when its share exceeds the fixed
threshold 5, otherwise `other`; with the column absent every region
defaults to `other`.  (`n` is the number of regions; the source's
`pd.to_numeric(...).fillna(0)` is the identity on rational cells.) -/
def classify_charging_type (ld : Col) (n : ℕ) : List String :=
  match ld with
  | none => List.replicate n "other"
  | some xs => xs.map (fun x => if 5 < x then "long_distance" else "other")

/-- Modelled from the spec (the reading asserted by claim C4, absent from
the source): scale-adaptive classification that uses threshold 0.05 when
the observed maximum share is ≤ 1 and threshold 5 otherwise. -/
def classifyChargingTypeSpec (ld : Col) (n : ℕ) : List String :=
  match ld with
  | none => List.replicate n "other"
  | some xs =>
    let thr : ℚ := if seriesMax xs ≤ 1 then 1/20 else 5
    xs.map (fun x => if thr < x then "long_distance" else "other")

/-! ## Charger-gap component (`calculate_infrastructure_score`, component 1) -/

/-- The truck-charger-gap component score for one region:
`gap_score = 100 * (distances.clip(0, 50) / 50)`. -/
def gapScore (d : ℚ) : ℚ := 100 * (min (max d 0) 50 / 50)

/-- Modelled from the spec (the reading asserted by claim C6, absent from
the source): the gap component scaled against the 90th percentile of the
observed nearest-charger distances as a dynamic cap. -/
def gapScoreP90Spec (ds : List ℚ) : List ℚ :=
  let cap := quantileLin (9/10) ds
  ds.map (fun d => 100 * (min (max d 0) cap / cap))

/-! ## Feasibility evaluators -/

/-- The columns read by `apply_minimal_constraints` and
`apply_hard_constraints`; `n` is the number of regions and a `none` column
is absent from the frame. -/
structure ConstraintTable where
  n : ℕ
  equity_0_trips : Col := none
  equity_1_trips : Col := none
  landuse_pct_protected_natural : Col := none
  mostly_protected : Col := none
  median_feeder_headroom_mva : Col := none
  truck_feasibility_tier : Col := none
  landuse_pct_commercial : Col := none
  landuse_pct_industrial : Col := none
  truck_suitability_final : Col := none
  has_commercial_industrial : Col := none
  touched_secondary_buffer : Col := none
  rural_flag : Col := none

/-- Total person activity: `equity_0_trips.fillna(0) + equity_1_trips.fillna(0)`,
each column contributing 0 when absent. -/
def personTrips (t : ConstraintTable) : List ℚ :=
  let base := List.replicate t.n (0:ℚ)
  let s1 := match t.equity_0_trips with
    | some c => List.zipWith (· + ·) base c
    | none => base
  match t.equity_1_trips with
  | some c => List.zipWith (· + ·) s1 c
  | none => s1

/-- `apply_minimal_constraints` — the feasibility evaluator that
`calculate_composite_score` invokes.  Constraints in source order: person
activity at the fixed bar ≥ 1 (skipped when no region has activity),
protected land, the optional zero-feeder-headroom exclusion, and the
development-potential floor.  The charger-saturation constraint is disabled
in the source (log only). -/
def apply_minimal_constraints (t : ConstraintTable)
    (exclude_zero_headroom : Bool) : List Bool :=
  let feasible := List.replicate t.n true
  let pt := personTrips t
  let feasible :=
    if 0 < seriesMax pt then
      List.zipWith (fun f p => f && decide ((1:ℚ) ≤ p)) feasible pt
    else feasible
  let feasible :=
    match t.landuse_pct_protected_natural with
    | some c => List.zipWith (fun f x => f && decide (x < 95)) feasible c
    | none =>
      match t.mostly_protected with
      | some c => List.zipWith (fun f x => f && decide (x = 0)) feasible c
      | none => feasible
  let feasible :=
    if exclude_zero_headroom then
      match t.median_feeder_headroom_mva with
      | some c => List.zipWith (fun f x => f && decide (0 < x)) feasible c
      | none => feasible
    else feasible
  let feasible :=
    match t.truck_feasibility_tier with
    | some tier =>
      let comm := colGetD t.landuse_pct_commercial t.n
      let ind := colGetD t.landuse_pct_industrial t.n
      let suit := colGetD t.truck_suitability_final t.n
      let pot := zipWith4 (fun tr c i s =>
        decide ((0:ℚ) ≤ tr) || decide ((1:ℚ)/2 < c) ||
          decide ((1:ℚ)/2 < i) || decide ((10:ℚ) < s)) tier comm ind suit
      List.zipWith (fun f p => f && p) feasible pot
    | none =>
      match t.truck_suitability_final with
      | some c => List.zipWith (fun f x => f && decide ((10:ℚ) ≤ x)) feasible c
      | none => feasible
  feasible

/-- `apply_hard_constraints` — the evaluator that honours the configured
`min_person_trips`; defined in the source but never invoked by the scoring
pipeline.  Constraints in source order: person activity at the configured
threshold (skipped when no region has activity), the optional
secondary-buffer and rural-only filters, land-use suitability, protected
land, and the optional zero-feeder-headroom exclusion. -/
def apply_hard_constraints (t : ConstraintTable) (min_person_trips : ℚ)
    (only_within_secondary_buffer only_rural exclude_zero_headroom : Bool) :
    List Bool :=
  let feasible := List.replicate t.n true
  let pt := personTrips t
  let feasible :=
    if 0 < seriesMax pt then
      List.zipWith (fun f p => f && decide (min_person_trips ≤ p)) feasible pt
    else feasible
  let feasible :=
    if only_within_secondary_buffer then
      match t.touched_secondary_buffer with
      | some c => List.zipWith (fun f x => f && decide (0 < x)) feasible c
      | none => feasible
    else feasible
  let feasible :=
    if only_rural then
      match t.rural_flag with
      | some c => List.zipWith (fun f x => f && decide (0 < x)) feasible c
      | none => feasible
    else feasible
  let feasible :=
    match t.truck_feasibility_tier with
    | some tier =>
      let comm := colGetD t.landuse_pct_commercial t.n
      let ind := colGetD t.landuse_pct_industrial t.n
      let suit := colGetD t.truck_suitability_final t.n
      let pot := zipWith4 (fun tr c i s =>
        decide ((1:ℚ) ≤ tr) || decide ((1:ℚ) < c) ||
          decide ((1:ℚ) < i) || decide ((20:ℚ) ≤ s)) tier comm ind suit
      List.zipWith (fun f p => f && p) feasible pot
    | none =>
      match t.truck_suitability_final with
      | some c => List.zipWith (fun f x => f && decide ((15:ℚ) ≤ x)) feasible c
      | none =>
        match t.has_commercial_industrial with
        | some c => List.zipWith (fun f x => f && decide (x = 1)) feasible c
        | none => feasible
  let feasible :=
    match t.landuse_pct_protected_natural with
    | some c => List.zipWith (fun f x => f && decide (x < 80)) feasible c
    | none =>
      match t.mostly_protected with
      | some c => List.zipWith (fun f x => f && decide (x = 0)) feasible c
      | none => feasible
  let feasible :=
    if exclude_zero_headroom then
      match t.median_feeder_headroom_mva with
      | some c => List.zipWith (fun f x => f && decide (0 < x)) feasible c
      | none => feasible
    else feasible
  feasible

/-- Modelled from the spec (the reading asserted by claim C3): the
activity-feasibility mask the claim ascribes to the scoring pipeline —
infeasible exactly when total person activity is below the configured
minimum, skipped entirely when no region has any activity. -/
def minActivityMaskSpec (t : ConstraintTable) (threshold : ℚ) : List Bool :=
  let pt := personTrips t
  if 0 < seriesMax pt then pt.map (fun p => decide (threshold ≤ p))
  else List.replicate t.n true

theorem zipWith_replicate_left {α β γ : Type} (f : α → β → γ) (a : α) :
    ∀ (l : List β) (n : ℕ), l.length = n →
      List.zipWith f (List.replicate n a) l = l.map (f a) := by
  intro l
  induction l with
  | nil => intro n _; cases n <;> rfl
  | cons b t ih =>
    intro n hn
    cases n with
    | zero => simp at hn
    | succ m =>
      simp only [List.replicate, List.zipWith_cons_cons, List.map_cons]
      rw [ih m (by simpa using hn)]

theorem personTrips_length (t : ConstraintTable)
    (h0 : ∀ c, t.equity_0_trips = some c → c.length = t.n)
    (h1 : ∀ c, t.equity_1_trips = some c → c.length = t.n) :
    (personTrips t).length = t.n := by
  unfold personTrips
  cases he0 : t.equity_0_trips with
  | none =>
    cases he1 : t.equity_1_trips with
    | none => simp
    | some c1 => simp [h1 c1 he1]
  | some c0 =>
    cases he1 : t.equity_1_trips with
    | none => simp [h0 c0 he0]
    | some c1 => simp [h0 c0 he0, h1 c1 he1]

/-- **C4 counterexample.** A long-distance-share column with maximum 0.42
(≤ 1): the claim's scale-adaptive rule classifies the region against
threshold 0.05 and yields `long_distance`, but `classify_charging_type`
always compares against the fixed threshold 5 and yields `other`. -/
theorem C4_counterexample :
    classify_charging_type (some [21/50]) 1 = ["other"] ∧
    classifyChargingTypeSpec (some [21/50]) 1 = ["long_distance"] ∧
    classify_charging_type (some [21/50]) 1 ≠
      classifyChargingTypeSpec (some [21/50]) 1 := by
  have h1 : classify_charging_type (some [21/50]) 1 = ["other"] := by
    norm_num [classify_charging_type]
  have h2 : classifyChargingTypeSpec (some [21/50]) 1 = ["long_distance"] := by
    norm_num [classifyChargingTypeSpec, seriesMax]
  refine ⟨h1, h2, ?_⟩
  rw [h1, h2]
  decide

/-- **C4 (amended).** The charging-type classifier applies the fixed
threshold 5 to the long-distance share column regardless of the column's
scale (there is no fraction-vs-percentage detection): a region is labelled
`long_distance` iff its share strictly exceeds 5, and when the column is
absent every region is labelled `other`. -/
theorem C4_classifier_fixed_threshold (ld : List ℚ) (n : ℕ) :
    (∀ i : ℕ, i < ld.length →
      ((classify_charging_type (some ld) n).getD i "" = "long_distance" ↔
        5 < ld.getD i 0)) ∧
    (classify_charging_type (some ld) n).length = ld.length ∧
    classify_charging_type none n = List.replicate n "other" := by
  refine ⟨?_, by simp [classify_charging_type], rfl⟩
  intro i hi
  have hmap : (classify_charging_type (some ld) n).getD i "" =
      (fun x => if 5 < x then "long_distance" else "other") (ld.getD i 0) := by
    unfold classify_charging_type
    rw [List.getD_eq_getElem?_getD, List.getElem?_map,
      List.getD_eq_getElem?_getD]
    cases h : ld[i]? with
    | none =>
      exact absurd (List.getElem?_eq_none_iff.mp h) (by omega)
    | some v => rfl
  rw [hmap]
  dsimp only
  by_cases h5 : 5 < ld.getD i 0
  · rw [if_pos h5]
    exact ⟨fun _ => h5, fun _ => rfl⟩
  · rw [if_neg h5]
    exact ⟨fun h => absurd h (by decide), fun h => absurd h h5⟩

/-- Witness for C4 (amended) at a concrete input: share 7 (> 5) is labelled
`long_distance`, share 3 is labelled `other`, and the column-absent table
gets all-`other`. -/
theorem C4_witness :
    ((0:ℕ) < ([7, 3] : List ℚ).length) ∧
    ((classify_charging_type (some [7, 3]) 2).getD 0 "" = "long_distance" ↔
      5 < ([7, 3] : List ℚ).getD 0 0) ∧
    classify_charging_type none 2 = List.replicate 2 "other" :=
  ⟨by decide, (C4_classifier_fixed_threshold [7, 3] 2).1 0 (by decide),
   (C4_classifier_fixed_threshold [7, 3] 2).2.2⟩

/-- **C6 counterexample.** On observed nearest-charger distances
`[10, 20]` the 90th percentile is 19, so the claim's dynamic-cap rule gives
scores `[1000/19, 100]`; the source's `100 * (d.clip(0, 50) / 50)` gives
`[20, 40]`. -/
theorem C6_counterexample :
    List.map gapScore [10, 20] = [20, 40] ∧
    gapScoreP90Spec [10, 20] = [1000/19, 100] ∧
    List.map gapScore [10, 20] ≠ gapScoreP90Spec [10, 20] := by
  have h1 : List.map gapScore [10, 20] = [20, 40] := by
    norm_num [gapScore, max_def, min_def]
  have h2 : gapScoreP90Spec [10, 20] = [1000/19, 100] := by
    have hs : sortAsc [10, 20] = [10, 20] := by
      norm_num [sortAsc, insertAsc, List.foldr]
    have hq : quantileLin (9/10) [10, 20] = 19 := by
      simp only [quantileLin, hs]
      rw [if_neg (by decide)]
      norm_num [Int.floor_eq_iff]
    norm_num [gapScoreP90Spec, hq, max_def, min_def]
  refine ⟨h1, h2, ?_⟩
  rw [h1, h2]
  norm_num

/-- **C6 (amended).** The charger-gap component is monotone nondecreasing
in the distance to the nearest existing charger, equals `2·d` on
`0 ≤ d ≤ 50`, and saturates at 100 beyond 50 miles: the scale is the fixed
50-mile cap, not a dynamic 90th-percentile cap. -/
theorem C6_gap_monotone_fixed_cap :
    (∀ d d' : ℚ, d ≤ d' → gapScore d ≤ gapScore d') ∧
    (∀ d : ℚ, 0 ≤ d → d ≤ 50 → gapScore d = 2 * d) ∧
    (∀ d : ℚ, 50 ≤ d → gapScore d = 100) := by
  refine ⟨?_, ?_, ?_⟩
  · intro d d' h
    unfold gapScore
    have h1 : max d 0 ≤ max d' 0 := max_le_max h le_rfl
    have h2 : min (max d 0) 50 ≤ min (max d' 0) 50 := min_le_min h1 le_rfl
    have h3 : min (max d 0) 50 / 50 ≤ min (max d' 0) 50 / 50 :=
      div_le_div_of_nonneg_right h2 (by norm_num)
    exact mul_le_mul_of_nonneg_left h3 (by norm_num)
  · intro d h0 h50
    unfold gapScore
    rw [max_eq_left h0, min_eq_left h50]
    ring
  · intro d h50
    unfold gapScore
    rw [max_eq_left (le_trans (by norm_num) h50), min_eq_right h50]
    norm_num

/-- Witness for C6 (amended) at concrete distances: monotone between 10 and
30 miles, linear at 10 miles, saturated at 60 miles. -/
theorem C6_witness :
    ((10:ℚ) ≤ 30 ∧ gapScore 10 ≤ gapScore 30) ∧
    ((0:ℚ) ≤ 10 ∧ (10:ℚ) ≤ 50 ∧ gapScore 10 = 2 * 10) ∧
    ((50:ℚ) ≤ 60 ∧ gapScore 60 = 100) :=
  ⟨⟨by norm_num, C6_gap_monotone_fixed_cap.1 10 30 (by norm_num)⟩,
   ⟨by norm_num, by norm_num,
    C6_gap_monotone_fixed_cap.2.1 10 (by norm_num) (by norm_num)⟩,
   ⟨by norm_num, C6_gap_monotone_fixed_cap.2.2 60 (by norm_num)⟩⟩

/-- The concrete two-region table for the C3 counterexample: total person
activities 5 and 20, configured minimum 10. -/
def c3Table : ConstraintTable := { n := 2, equity_0_trips := some [5, 20] }

/-- **C3 counterexample.** With a configured minimum of 10, the claim marks
the region with total activity 5 infeasible; the feasibility evaluation the
scoring pipeline actually uses (`apply_minimal_constraints`) applies a
fixed ≥ 1 bar and keeps it feasible. -/
theorem C3_counterexample :
    apply_minimal_constraints c3Table false = [true, true] ∧
    minActivityMaskSpec c3Table 10 = [false, true] ∧
    apply_minimal_constraints c3Table false ≠ minActivityMaskSpec c3Table 10 := by
  have hpt : personTrips c3Table = [5, 20] := by
    norm_num [personTrips, c3Table, List.replicate, List.zipWith]
  have h1 : apply_minimal_constraints c3Table false = [true, true] := by
    simp only [apply_minimal_constraints, hpt, c3Table]
    norm_num [seriesMax, List.foldl, List.replicate, List.zipWith, max_def]
  have h2 : minActivityMaskSpec c3Table 10 = [false, true] := by
    simp only [minActivityMaskSpec, hpt]
    norm_num [seriesMax, List.foldl, max_def]
  exact ⟨h1, h2, by rw [h1, h2]; decide⟩

/-- **C3 (amended).** The feasibility evaluation used by the scoring
pipeline (`apply_minimal_constraints`) applies a fixed activity bar of 1,
not the configured minimum: on a table whose only populated columns are the
two trip-count columns, its mask is exactly `total activity ≥ 1` per
region, skipped entirely (all-feasible) when no region has activity.  The
configured minimum governs only `apply_hard_constraints` (which the
pipeline never calls), whose mask under the same conditions is exactly
`total activity ≥ threshold` per region, with the same `max() == 0` skip. -/
theorem C3_activity_threshold_behaviour (t : ConstraintTable)
    (h0 : ∀ c, t.equity_0_trips = some c → c.length = t.n)
    (h1 : ∀ c, t.equity_1_trips = some c → c.length = t.n)
    (hprot : t.landuse_pct_protected_natural = none)
    (hmost : t.mostly_protected = none)
    (hhead : t.median_feeder_headroom_mva = none)
    (htier : t.truck_feasibility_tier = none)
    (hsuit : t.truck_suitability_final = none)
    (hcomm : t.has_commercial_industrial = none) :
    (∀ ex : Bool, apply_minimal_constraints t ex =
      (if 0 < seriesMax (personTrips t) then
        (personTrips t).map (fun p => decide ((1:ℚ) ≤ p))
      else List.replicate t.n true)) ∧
    (∀ thr : ℚ, apply_hard_constraints t thr false false false =
      (if 0 < seriesMax (personTrips t) then
        (personTrips t).map (fun p => decide (thr ≤ p))
      else List.replicate t.n true)) := by
  have hlen : (personTrips t).length = t.n := personTrips_length t h0 h1
  constructor
  · intro ex
    simp only [apply_minimal_constraints, hprot, hmost, hhead, htier, hsuit,
      ite_self]
    by_cases hmax : 0 < seriesMax (personTrips t)
    · rw [if_pos hmax, if_pos hmax,
        zipWith_replicate_left _ _ _ _ hlen]
      simp only [Bool.true_and]
    · rw [if_neg hmax, if_neg hmax]
  · intro thr
    simp only [apply_hard_constraints, hprot, hmost, hhead, htier, hsuit,
      hcomm, if_neg (Bool.false_ne_true), Bool.false_eq_true, if_false]
    by_cases hmax : 0 < seriesMax (personTrips t)
    · rw [if_pos hmax, if_pos hmax,
        zipWith_replicate_left _ _ _ _ hlen]
      simp only [Bool.true_and]
    · rw [if_neg hmax, if_neg hmax]

/-! ## Category scorers

The four category scorers of `TruckChargingSiteSelector`.  Each takes its
own view of the region table (the columns it reads) plus the relevant
weight dicts from `self.config`. -/

def zipWith3 {α β γ δ : Type} (f : α → β → γ → δ) :
    List α → List β → List γ → List δ
  | a :: l₁, b :: l₂, c :: l₃ => f a b c :: zipWith3 f l₁ l₂ l₃
  | _, _, _ => []

/-- Python `{**base, **user}`: base keys in order with the user's overriding
values, then the user's novel keys in order. -/
def dictMerge (base user : WDict) : WDict :=
  base.map (fun kv =>
    match user.find? (fun uv => uv.1 = kv.1) with
    | some uv => (kv.1, uv.2)
    | none => kv) ++
  user.filter (fun uv => base.all (fun kv => kv.1 ≠ uv.1))

/-- The columns read by `calculate_infrastructure_score` and its grid
sub-scorer.  The two `government_social_services` fields each stand for the
first present alias among the source's spelling variants. -/
structure InfraTable where
  n : ℕ
  area_sq_mi : Col := none
  nearest_truck_charger_mi : Col := none
  park_ride_spaces_within_5mi : Col := none
  government_social_services_within_5mi : Col := none
  government_social_services_in_tract : Col := none
  retail_commercial_in_tract : Col := none
  rest_stops_within_5mi : Col := none
  poi_density_per_sq_mi : Col := none
  estimated_park_ride_area_acres : Col := none
  quantity_substations : Col := none
  ng_grid_capacity_score : Col := none
  ev_infrastructure_readiness : Col := none
  median_feeder_headroom_mva : Col := none

/-- `_infra_defaults` — the default infrastructure weights merged under the
user's dict (0.20, 0.15, 0.15, legacy 0.00, 0.05, 0.35). -/
def infraDefaults : WDict :=
  [("truck_charger_gap_weight", some (1/5)),
   ("park_ride_weight", some (3/20)),
   ("government_weight", some (3/20)),
   ("colocation_weight", some 0),
   ("expansion_weight", some (1/20)),
   ("electric_grid_weight", some (7/20))]

/-- `_calculate_grid_infrastructure_score`: fixed sub-weights 0.30 / 0.35 /
0.20 / 0.15 over the four grid signals, clipped to 0-100. -/
def gridInfrastructureScore (t : InfraTable) : List ℚ :=
  let g := List.replicate t.n (0:ℚ)
  let g := match t.quantity_substations with
    | some c => addWeighted g (c.map (fun s => min (max s 0) 5 / 5 * 100)) (3/10)
    | none => g
  let g := match t.ng_grid_capacity_score with
    | some c => addWeighted g c (7/20)
    | none => g
  let g := match t.ev_infrastructure_readiness with
    | some c => addWeighted g c (1/5)
    | none => g
  let g := match t.median_feeder_headroom_mva with
    | some c =>
      let hrScore :=
        if 0 < seriesMax c then c.map (fun h => min (max h 0) 50 / 50 * 100)
        else List.replicate t.n (0:ℚ)
      addWeighted g hrScore (3/20)
    | none => g
  clip0100 g

/-- `calculate_infrastructure_score`: merges the user's weight dict over
`_infra_defaults`, short-circuits to all-zero when the merged weights sum
to 0, points-normalizes the dict, then accumulates the weighted components
whose source columns are present, ending with a 0-100 clip. -/
def calculate_infrastructure_score (t : InfraTable) (userWeights : WDict) :
    List ℚ :=
  let iw := dictMerge infraDefaults userWeights
  if WDict.sumOr0 iw = 0 then List.replicate t.n 0
  else
    let iw := normalizeWeightDict iw
    let s := List.replicate t.n (0:ℚ)
    let s := match t.nearest_truck_charger_mi with
      | some ds => addWeighted s (ds.map gapScore)
          (iw.get "truck_charger_gap_weight" 0)
      | none => s
    let s := match t.park_ride_spaces_within_5mi with
      | some c => addWeighted s (normalizeScore c) (iw.get "park_ride_weight" 0)
      | none => s
    let s := match t.government_social_services_within_5mi with
      | some c => addWeighted s (normalizeScore c) (iw.get "government_weight" 0)
      | none =>
        match t.government_social_services_in_tract with
        | some c => addWeighted s (normalizeScoreWithDensity c t.area_sq_mi)
            (iw.get "government_weight" 0)
        | none => s
    let s := match t.retail_commercial_in_tract with
      | some c =>
        let base := (normalizeScoreWithDensity c t.area_sq_mi).map
          (fun x => x * (1/2))
        let base := match t.rest_stops_within_5mi with
          | some r => List.zipWith (· + ·) base
              ((normalizeScore r).map (fun x => x * (3/10)))
          | none => base
        let base := match t.poi_density_per_sq_mi with
          | some pd => List.zipWith (· + ·) base
              ((normalizeScore pd).map (fun x => x * (1/5)))
          | none => base
        addWeighted s (clip0100 base) (iw.get "colocation_weight" 0)
      | none => s
    let s := match t.estimated_park_ride_area_acres with
      | some c => addWeighted s (normalizeScore c) (iw.get "expansion_weight" 0)
      | none => s
    let s := addWeighted s (gridInfrastructureScore t)
      (iw.get "electric_grid_weight" 0)
    clip0100 s

/-- The columns read by `calculate_accessibility_score`.  The `within_5mi`
fields stand for the first present alias among the source's variants. -/
structure AccessTable where
  n : ℕ
  area_sq_mi : Col := none
  secondary_corridor_only_score : Col := none
  D3AAO : Col := none
  grocery_stores_within_5mi : Col := none
  grocery_stores_in_tract : Col := none
  gas_stations_within_5mi : Col := none
  gas_stations_in_tract : Col := none

/-- Default accessibility weights (0.50 / 0.25 / 0.25), used when the config
has no `accessibility_weights` entry. -/
def accessDefaults : WDict :=
  [("network_weight", some (1/2)), ("grocery_weight", some (1/4)),
   ("gas_station_weight", some (1/4))]

/-- `calculate_accessibility_score`: in secondary-corridor mode the corridor
column alone (clipped); otherwise the three weighted components with the
all-zero-weights short-circuit, ending with a 0-100 clip. -/
def calculate_accessibility_score (t : AccessTable) (cfg : Option WDict)
    (secondary_corridor_mode : Bool) : List ℚ :=
  if secondary_corridor_mode then
    let s := List.replicate t.n (0:ℚ)
    let s := match t.secondary_corridor_only_score with
      | some c => List.zipWith (· + ·) s c
      | none => s
    clip0100 s
  else
    let aw := cfg.getD accessDefaults
    if WDict.sumOr0 aw = 0 then List.replicate t.n 0
    else
      let aw := normalizeWeightDict aw
      let s := List.replicate t.n (0:ℚ)
      let s := match t.D3AAO with
        | some c => addWeighted s (normalizeScore c) (aw.get "network_weight" 0)
        | none => s
      let s := match t.grocery_stores_within_5mi with
        | some c => addWeighted s (normalizeScore c) (aw.get "grocery_weight" 0)
        | none =>
          match t.grocery_stores_in_tract with
          | some c => addWeighted s (normalizeScoreWithDensity c t.area_sq_mi)
              (aw.get "grocery_weight" 0)
          | none => s
      let s := match t.gas_stations_within_5mi with
        | some c => addWeighted s (normalizeScore c)
            (aw.get "gas_station_weight" 0)
        | none =>
          match t.gas_stations_in_tract with
          | some c => addWeighted s (normalizeScoreWithDensity c t.area_sq_mi)
              (aw.get "gas_station_weight" 0)
          | none => s
      clip0100 s

/-- The columns read by `calculate_equity_feasibility_score`;
`charging_type` is the string column written by the classifier when it has
already run. -/
structure EquityTable where
  n : ℕ
  charging_type : Option (List String) := none
  ej_priority_score : Col := none
  truck_suitability_final : Col := none
  truck_charging_suitability : Col := none
  truck_feasibility_tier : Col := none
  has_commercial_industrial : Col := none
  protected_penalty : Col := none
  mostly_protected : Col := none
  schools_within_5mi : Col := none
  hospitals_within_5mi : Col := none

/-- Default equity weights (0.4 / 0.35 / 0.15 / 0.1), used when the config
has no `equity_weights` entry. -/
def equityDefaults : WDict :=
  [("ej_priority_weight", some (2/5)), ("landuse_suit_weight", some (7/20)),
   ("tier_bonus_weight", some (3/20)), ("protected_penalty_weight", some (1/10))]

/-- `calculate_equity_feasibility_score`: starts every region at 50, adds
the weighted EJ benefit (zeroed for `depot_overnight` regions when the
charging-type column exists), land-use suitability, tier bonus, the
protected-land term, and the school/hospital proximity penalties, ending
with a 0-100 clip; short-circuits to all-zero when the weight dict sums
to 0. -/
def calculate_equity_feasibility_score (t : EquityTable) (cfg : Option WDict) :
    List ℚ :=
  let ew := cfg.getD equityDefaults
  if WDict.sumOr0 ew = 0 then List.replicate t.n 0
  else
    let ew := normalizeWeightDict ew
    let s := List.replicate t.n (50:ℚ)
    let s := match t.ej_priority_score with
      | some ej =>
        let ejBase := ej.map (fun x => x / 100 * 30)
        match t.charging_type with
        | some ct =>
          let ejAdj := List.zipWith
            (fun e c => if c = "depot_overnight" then 0 else e) ejBase ct
          addWeighted s ejAdj (ew.get "ej_priority_weight" 0)
        | none => addWeighted s ejBase (ew.get "ej_priority_weight" 0)
      | none => s
    let s := match t.truck_suitability_final with
      | some c => addWeighted s (c.map (fun x => x / 100 * 40))
          (ew.get "landuse_suit_weight" 0)
      | none =>
        match t.truck_charging_suitability with
        | some c => addWeighted s (c.map (fun x => x / 100 * 40))
            (ew.get "landuse_suit_weight" 0)
        | none => s
    let s := match t.truck_feasibility_tier with
      | some c => addWeighted s (c.map (fun x => x * 5))
          (ew.get "tier_bonus_weight" 0)
      | none =>
        match t.has_commercial_industrial with
        | some c => addWeighted s (c.map (fun x => x * 20))
            (ew.get "tier_bonus_weight" 0)
        | none => s
    let s := match t.protected_penalty with
      | some c => addWeighted s c (ew.get "protected_penalty_weight" 0)
      | none =>
        match t.mostly_protected with
        | some c => List.zipWith
            (fun a p => a - p * 50 * (ew.get "protected_penalty_weight" 0)) s c
        | none => s
    let s := match t.schools_within_5mi with
      | some c => List.zipWith (fun a d =>
          a - (if 5 < d then (20:ℚ) else if 2 < d then 10 else 0) * (1/20)) s c
      | none => s
    let s := match t.hospitals_within_5mi with
      | some c => List.zipWith
          (fun a d => a - (if 3 < d then (15:ℚ) else 0) * (1/20)) s c
      | none => s
  clip0100 s

/-- The columns read by `calculate_demand_score`. -/
structure DemandTable where
  n : ℕ
  area_sq_mi : Col := none
  purpose_1_trips : Col := none
  purpose_2_trips : Col := none
  purpose_3_trips : Col := none
  dow_1_trips : Col := none
  dow_2_3_trips : Col := none
  equity_0_trips : Col := none
  equity_1_trips : Col := none
  passenger_temporal_stability_score : Col := none
  passenger_peak_demand_score : Col := none
  truck_temporal_stability_score : Col := none
  truck_peak_demand_score : Col := none

/-- `calculate_demand_score`: the four demand components (trip purpose,
day-of-week, equity-trip mix — each density-normalized — and the temporal
pair used as-is), each skipped when its columns are absent or its weight
group is explicitly disabled; present components are combined with the
component weights renormalized over the present set; all-zero with no
components; clipped to 0-100.  `demandWeights` is `config['demand_weights']`
and `componentWeightsRaw` is `config.get('demand_component_weights', {})`
(normalized here as in the source). -/
def calculate_demand_score (t : DemandTable)
    (demandWeights componentWeightsRaw : WDict) : List ℚ :=
  let cw := normalizeWeightDict componentWeightsRaw
  let comps : List (List ℚ × ℚ) := []
  let comps := match t.purpose_1_trips, t.purpose_2_trips, t.purpose_3_trips with
    | some c1, some c2, some c3 =>
      if isGroupDisabled demandWeights
          ["home_end_weight", "workplace_end_weight", "other_end_weight"] then
        comps
      else
        let ws := normalizeWeightGroup demandWeights
          ["home_end_weight", "workplace_end_weight", "other_end_weight"]
          [2/5, 2/5, 1/5]
        let home := normalizeScoreWithDensity c1 t.area_sq_mi
        let work := normalizeScoreWithDensity c2 t.area_sq_mi
        let other := normalizeScoreWithDensity c3 t.area_sq_mi
        let score := zipWith3 (fun h w o =>
          h * ws.getD 0 0 + w * ws.getD 1 0 + o * ws.getD 2 0) home work other
        comps ++ [(score, cw.get "purpose" (7/20))]
    | _, _, _ => comps
  let comps := match t.dow_1_trips, t.dow_2_3_trips with
    | some c1, some c2 =>
      if isGroupDisabled demandWeights ["weekday_weight", "weekend_weight"] then
        comps
      else
        let ws := normalizeWeightGroup demandWeights
          ["weekday_weight", "weekend_weight"] [7/10, 3/10]
        let wd := normalizeScoreWithDensity c1 t.area_sq_mi
        let we := normalizeScoreWithDensity c2 t.area_sq_mi
        let score := List.zipWith (fun a b =>
          a * ws.getD 0 0 + b * ws.getD 1 0) wd we
        comps ++ [(score, cw.get "day_of_week" (1/4))]
    | _, _ => comps
  let comps := match t.equity_0_trips, t.equity_1_trips with
    | some c0, some c1 =>
      if isGroupDisabled demandWeights
          ["equity_community_weight", "non_equity_community_weight"] then
        comps
      else
        let ws := normalizeWeightGroup demandWeights
          ["equity_community_weight", "non_equity_community_weight"] [1/2, 1/2]
        let nonEq := normalizeScoreWithDensity c0 t.area_sq_mi
        let eq_ := normalizeScoreWithDensity c1 t.area_sq_mi
        let score := List.zipWith (fun e ne =>
          e * ws.getD 0 0 + ne * ws.getD 1 0) eq_ nonEq
        comps ++ [(score, cw.get "equity_trips" (1/5))]
    | _, _ => comps
  let tcols : Option (List ℚ × List ℚ) :=
    match t.passenger_temporal_stability_score,
        t.passenger_peak_demand_score with
    | some st, some pk => some (st, pk)
    | _, _ =>
      match t.truck_temporal_stability_score, t.truck_peak_demand_score with
      | some st, some pk => some (st, pk)
      | _, _ => none
  let comps := match tcols with
    | some (st, pk) =>
      if isGroupDisabled demandWeights
          ["temporal_stability_weight", "temporal_peak_weight"] then
        comps
      else
        let ws := normalizeWeightGroup demandWeights
          ["temporal_stability_weight", "temporal_peak_weight"] [3/5, 2/5]
        let score := List.zipWith (fun a b =>
          a * ws.getD 0 0 + b * ws.getD 1 0) st pk
        comps ++ [(score, cw.get "temporal_pattern" (1/5))]
    | none => comps
  let raw := match comps with
    | [] => List.replicate t.n (0:ℚ)
    | _ =>
      let total := (comps.map (fun sc => sc.2)).sum
      comps.foldl (fun acc sc =>
        List.zipWith (· + ·) acc (sc.1.map (fun x => x * (sc.2 / total))))
        (List.replicate t.n 0)
  clip0100 raw

/-- Witness for C3 (amended) on a concrete table with activities `[0, 10]`:
the pipeline's evaluator excludes the zero-activity region and passes the
one with exactly 10, and `apply_hard_constraints` at threshold 10 does the
same. -/
theorem C3_witness :
    apply_minimal_constraints { n := 2, equity_0_trips := some [0, 10] } false =
      (if 0 < seriesMax (personTrips { n := 2, equity_0_trips := some [0, 10] }) then
        (personTrips { n := 2, equity_0_trips := some [0, 10] }).map
          (fun p => decide ((1:ℚ) ≤ p))
      else List.replicate 2 true) ∧
    apply_hard_constraints { n := 2, equity_0_trips := some [0, 10] } 10
        false false false =
      (if 0 < seriesMax (personTrips { n := 2, equity_0_trips := some [0, 10] }) then
        (personTrips { n := 2, equity_0_trips := some [0, 10] }).map
          (fun p => decide ((10:ℚ) ≤ p))
      else List.replicate 2 true) :=
  ⟨(C3_activity_threshold_behaviour { n := 2, equity_0_trips := some [0, 10] }
      (fun c hc => by cases hc; rfl) (fun c hc => by cases hc)
      rfl rfl rfl rfl rfl rfl).1 false,
   (C3_activity_threshold_behaviour { n := 2, equity_0_trips := some [0, 10] }
      (fun c hc => by cases hc; rfl) (fun c hc => by cases hc)
      rfl rfl rfl rfl rfl rfl).2 10⟩

theorem zipWith_replicate_same {α β γ : Type} (f : α → β → γ) (a : α) (b : β)
    (n : ℕ) :
    List.zipWith f (List.replicate n a) (List.replicate n b) =
      List.replicate n (f a b) := by
  induction n with
  | zero => rfl
  | succ m ih => simp [List.replicate, ih]

theorem clip0100_replicate_zero (n : ℕ) :
    clip0100 (List.replicate n (0:ℚ)) = List.replicate n 0 := by
  unfold clip0100
  rw [List.map_replicate, max_self, min_eq_left (by norm_num : (0:ℚ) ≤ 100)]

theorem clip0100_replicate_fifty (n : ℕ) :
    clip0100 (List.replicate n (50:ℚ)) = List.replicate n 50 := by
  unfold clip0100
  rw [List.map_replicate, max_eq_left (by norm_num : (0:ℚ) ≤ 50),
    min_eq_left (by norm_num : (50:ℚ) ≤ 100)]

/-- **C5 (amended).** For each of the infrastructure, accessibility and
equity scorers, a component-weight dict summing to exactly 0 short-circuits
the category to an all-zero score — where for infrastructure the dict in
question is the user's dict merged over `_infra_defaults`.  Because the
legacy expansion (0.05) and electric-grid (0.35) default weights survive
that merge, zeroing only the three UI-exposed weights (charger-gap,
park-and-ride, government) does not disable the category
(`C5_counterexample`); zeroing all six merged weights does. -/
theorem C5_zero_weight_sum_short_circuit :
    (∀ (t : InfraTable) (userW : WDict),
      WDict.sumOr0 (dictMerge infraDefaults userW) = 0 →
      calculate_infrastructure_score t userW = List.replicate t.n 0) ∧
    (∀ (t : AccessTable) (cfg : Option WDict),
      WDict.sumOr0 (cfg.getD accessDefaults) = 0 →
      calculate_accessibility_score t cfg false = List.replicate t.n 0) ∧
    (∀ (t : EquityTable) (cfg : Option WDict),
      WDict.sumOr0 (cfg.getD equityDefaults) = 0 →
      calculate_equity_feasibility_score t cfg = List.replicate t.n 0) := by
  refine ⟨?_, ?_, ?_⟩
  · intro t uw h
    simp only [calculate_infrastructure_score]
    rw [if_pos h]
  · intro t cfg h
    simp only [calculate_accessibility_score, Bool.false_eq_true, if_false]
    rw [if_pos h]
  · intro t cfg h
    simp only [calculate_equity_feasibility_score]
    rw [if_pos h]

/-- The one-region table for the C5 counterexample: a charger 12 miles
away and 5 substations in the tract. -/
def c5Table : InfraTable :=
  { n := 1, nearest_truck_charger_mi := some [12],
    quantity_substations := some [5] }

/-- The user dict of the C5 counterexample: exactly the three UI-exposed
infrastructure weights, all set to 0 (as `run_analysis` builds it). -/
def c5UserWeights : WDict :=
  [("truck_charger_gap_weight", some 0), ("park_ride_weight", some 0),
   ("government_weight", some 0)]

/-- **C5 counterexample.** Setting the three infrastructure component
weights (charger-gap, park-and-ride, government) to 0 does not yield an
all-zero infrastructure score: on `c5Table` the merged default electric-grid
weight (0.35) still contributes and the score is 10.5, not 0. -/
theorem C5_counterexample :
    calculate_infrastructure_score c5Table c5UserWeights = [21/2] ∧
    (21/2 : ℚ) ≠ 0 := by
  have hmerge : dictMerge infraDefaults c5UserWeights =
      [("truck_charger_gap_weight", some 0), ("park_ride_weight", some 0),
       ("government_weight", some 0), ("colocation_weight", some 0),
       ("expansion_weight", some (1/20)),
       ("electric_grid_weight", some (7/20))] := by rfl
  have hsum : WDict.sumOr0 (dictMerge infraDefaults c5UserWeights) = 2/5 := by
    rw [hmerge]; norm_num [WDict.sumOr0]
  have hnnval : WDict.nonNullSum (dictMerge infraDefaults c5UserWeights) =
      2/5 := by
    rw [hmerge]
    norm_num [WDict.nonNullSum, List.filterMap_cons, List.filterMap_nil,
      List.sum_cons, List.sum_nil]
  have hne : dictMerge infraDefaults c5UserWeights ≠ [] := by
    rw [hmerge]; decide
  have hnorm : normalizeWeightDict (dictMerge infraDefaults c5UserWeights) =
      dictMerge infraDefaults c5UserWeights := by
    rw [normalizeWeightDict_eq, if_neg hne,
      if_neg (by rw [hnnval]; norm_num), if_pos (by rw [hnnval]; norm_num)]
  have hgrid : gridInfrastructureScore c5Table = [30] := by
    simp only [gridInfrastructureScore, c5Table]
    norm_num [addWeighted, clip0100, List.replicate, List.zipWith,
      max_def, min_def]
  have hget_gap : WDict.get
      [("truck_charger_gap_weight", some 0), ("park_ride_weight", some 0),
       ("government_weight", some 0), ("colocation_weight", some 0),
       ("expansion_weight", some (1/20)),
       ("electric_grid_weight", some (7/20))]
      "truck_charger_gap_weight" 0 = 0 := rfl
  have hget_grid : WDict.get
      [("truck_charger_gap_weight", some 0), ("park_ride_weight", some 0),
       ("government_weight", some 0), ("colocation_weight", some 0),
       ("expansion_weight", some (1/20)),
       ("electric_grid_weight", some (7/20))]
      "electric_grid_weight" 0 = 7/20 := rfl
  refine ⟨?_, by norm_num⟩
  simp only [calculate_infrastructure_score]
  rw [if_neg (by rw [hsum]; norm_num), hnorm, hmerge, hgrid]
  simp only [c5Table]
  rw [hget_gap, hget_grid]
  norm_num [addWeighted, clip0100, gapScore, List.replicate, List.zipWith,
    max_def, min_def]

/-- All six merged infrastructure weights set to 0 (the configuration under
which the merged dict genuinely sums to 0). -/
def c5AllZeroWeights : WDict :=
  [("truck_charger_gap_weight", some 0), ("park_ride_weight", some 0),
   ("government_weight", some 0), ("colocation_weight", some 0),
   ("expansion_weight", some 0), ("electric_grid_weight", some 0)]

/-- Witness for C5 (amended): concrete all-zero weight dicts short-circuit
each of the three scorers on concrete one-region tables with live data. -/
theorem C5_witness :
    WDict.sumOr0 (dictMerge infraDefaults c5AllZeroWeights) = 0 ∧
    calculate_infrastructure_score c5Table c5AllZeroWeights =
      List.replicate c5Table.n 0 ∧
    WDict.sumOr0 ((some [("network_weight", (some 0 : Option ℚ)),
      ("grocery_weight", some 0), ("gas_station_weight", some 0)] :
        Option WDict).getD accessDefaults) = 0 ∧
    calculate_accessibility_score { n := 1, D3AAO := some [7] }
      (some [("network_weight", some 0), ("grocery_weight", some 0),
        ("gas_station_weight", some 0)]) false = List.replicate 1 0 ∧
    WDict.sumOr0 ((some [("ej_priority_weight", (some 0 : Option ℚ)),
      ("landuse_suit_weight", some 0), ("tier_bonus_weight", some 0),
      ("protected_penalty_weight", some 0)] : Option WDict).getD
        equityDefaults) = 0 ∧
    calculate_equity_feasibility_score { n := 1, ej_priority_score := some [80] }
      (some [("ej_priority_weight", some 0), ("landuse_suit_weight", some 0),
        ("tier_bonus_weight", some 0), ("protected_penalty_weight", some 0)]) =
      List.replicate 1 0 := by
  have h1 : WDict.sumOr0 (dictMerge infraDefaults c5AllZeroWeights) = 0 := by
    have hm : dictMerge infraDefaults c5AllZeroWeights = c5AllZeroWeights := by
      rfl
    rw [hm]; norm_num [WDict.sumOr0, c5AllZeroWeights]
  have h2 : WDict.sumOr0 ((some [("network_weight", (some 0 : Option ℚ)),
      ("grocery_weight", some 0), ("gas_station_weight", some 0)] :
        Option WDict).getD accessDefaults) = 0 := by
    norm_num [WDict.sumOr0, Option.getD]
  have h3 : WDict.sumOr0 ((some [("ej_priority_weight", (some 0 : Option ℚ)),
      ("landuse_suit_weight", some 0), ("tier_bonus_weight", some 0),
      ("protected_penalty_weight", some 0)] : Option WDict).getD
        equityDefaults) = 0 := by
    norm_num [WDict.sumOr0, Option.getD]
  exact ⟨h1, C5_zero_weight_sum_short_circuit.1 c5Table c5AllZeroWeights h1,
    h2, C5_zero_weight_sum_short_circuit.2.1 { n := 1, D3AAO := some [7] } _ h2,
    h3, C5_zero_weight_sum_short_circuit.2.2
      { n := 1, ej_priority_score := some [80] } _ h3⟩

/-- **C10.** With none of the equity source columns present and the equity
component weights not summing to 0, the equity score is exactly 50 for
every region — the scorer starts from a baseline of 50 — while the demand,
infrastructure and accessibility scorers on a table with none of their
source columns produce all-zero scores (they start from 0). -/
theorem C10_equity_baseline_fifty :
    (∀ (t : EquityTable) (cfg : Option WDict),
      t.ej_priority_score = none → t.truck_suitability_final = none →
      t.truck_charging_suitability = none → t.truck_feasibility_tier = none →
      t.has_commercial_industrial = none → t.protected_penalty = none →
      t.mostly_protected = none → t.schools_within_5mi = none →
      t.hospitals_within_5mi = none →
      WDict.sumOr0 (cfg.getD equityDefaults) ≠ 0 →
      calculate_equity_feasibility_score t cfg = List.replicate t.n 50) ∧
    (∀ (t : DemandTable) (dw cwRaw : WDict),
      t.purpose_1_trips = none → t.purpose_2_trips = none →
      t.purpose_3_trips = none → t.dow_1_trips = none →
      t.dow_2_3_trips = none → t.equity_0_trips = none →
      t.equity_1_trips = none →
      t.passenger_temporal_stability_score = none →
      t.passenger_peak_demand_score = none →
      t.truck_temporal_stability_score = none →
      t.truck_peak_demand_score = none →
      calculate_demand_score t dw cwRaw = List.replicate t.n 0) ∧
    (∀ (t : InfraTable) (userW : WDict),
      t.nearest_truck_charger_mi = none →
      t.park_ride_spaces_within_5mi = none →
      t.government_social_services_within_5mi = none →
      t.government_social_services_in_tract = none →
      t.retail_commercial_in_tract = none →
      t.estimated_park_ride_area_acres = none →
      t.quantity_substations = none → t.ng_grid_capacity_score = none →
      t.ev_infrastructure_readiness = none →
      t.median_feeder_headroom_mva = none →
      calculate_infrastructure_score t userW = List.replicate t.n 0) ∧
    (∀ (t : AccessTable) (cfg : Option WDict),
      t.D3AAO = none → t.grocery_stores_within_5mi = none →
      t.grocery_stores_in_tract = none → t.gas_stations_within_5mi = none →
      t.gas_stations_in_tract = none →
      calculate_accessibility_score t cfg false = List.replicate t.n 0) := by
  refine ⟨?_, ?_, ?_, ?_⟩
  · intro t cfg h1 h2 h3 h4 h5 h6 h7 h8 h9 hw
    simp only [calculate_equity_feasibility_score, h1, h2, h3, h4, h5, h6,
      h7, h8, h9, if_neg hw]
    exact clip0100_replicate_fifty t.n
  · intro t dw cw h1 h2 h3 h4 h5 h6 h7 h8 h9 h10 h11
    simp only [calculate_demand_score, h1, h2, h3, h4, h5, h6, h7, h8, h9,
      h10, h11]
    exact clip0100_replicate_zero t.n
  · intro t uw h1 h2 h3 h4 h5 h6 h7 h8 h9 h10
    simp only [calculate_infrastructure_score, h1, h2, h3, h4, h5, h6]
    by_cases hc : WDict.sumOr0 (dictMerge infraDefaults uw) = 0
    · rw [if_pos hc]
    · rw [if_neg hc]
      have hgrid : gridInfrastructureScore t = List.replicate t.n 0 := by
        simp only [gridInfrastructureScore, h7, h8, h9, h10]
        exact clip0100_replicate_zero t.n
      rw [hgrid]
      unfold addWeighted
      rw [zipWith_replicate_same]
      have hz : (0:ℚ) + 0 *
          ((normalizeWeightDict (dictMerge infraDefaults uw)).get
            "electric_grid_weight" 0) = 0 := by ring
      rw [hz]
      exact clip0100_replicate_zero t.n
  · intro t cfg h1 h2 h3 h4 h5
    simp only [calculate_accessibility_score, Bool.false_eq_true, if_false,
      h1, h2, h3, h4, h5]
    by_cases hc : WDict.sumOr0 (cfg.getD accessDefaults) = 0
    · rw [if_pos hc]
    · rw [if_neg hc]
      exact clip0100_replicate_zero t.n

/-- Witness for C10 on concrete two-region column-less tables: equity 50s,
the other three scorers 0s (default weight dicts; the equity default dict
sums to 1 ≠ 0). -/
theorem C10_witness :
    WDict.sumOr0 ((none : Option WDict).getD equityDefaults) ≠ 0 ∧
    calculate_equity_feasibility_score { n := 2 } none =
      List.replicate 2 50 ∧
    calculate_demand_score { n := 2 } [] [] = List.replicate 2 0 ∧
    calculate_infrastructure_score { n := 2 } [] = List.replicate 2 0 ∧
    calculate_accessibility_score { n := 2 } none false =
      List.replicate 2 0 := by
  have hw : WDict.sumOr0 ((none : Option WDict).getD equityDefaults) ≠ 0 := by
    norm_num [WDict.sumOr0, equityDefaults, Option.getD]
  exact ⟨hw,
    C10_equity_baseline_fifty.1 { n := 2 } none rfl rfl rfl rfl rfl rfl rfl
      rfl rfl hw,
    C10_equity_baseline_fifty.2.1 { n := 2 } [] [] rfl rfl rfl rfl rfl rfl
      rfl rfl rfl rfl rfl,
    C10_equity_baseline_fifty.2.2.1 { n := 2 } [] rfl rfl rfl rfl rfl rfl
      rfl rfl rfl rfl,
    C10_equity_baseline_fifty.2.2.2 { n := 2 } none rfl rfl rfl rfl rfl⟩

/-! ## Composite scorer -/

/-- The four top-level category weights (`config['weights']`). -/
structure TopWeights where
  demand : ℚ
  infrastructure : ℚ
  accessibility : ℚ
  equity_feasibility : ℚ

/-- One row of the scored output table: the composite value with the
feasibility boolean carried alongside it. -/
structure ScoredRow where
  composite : ℚ
  feasible : Bool

/-- The composite combination of `calculate_composite_score`:
`demand*w_demand + infrastructure*w_infrastructure + accessibility*w_accessibility
+ equity_feasibility*w_equity_feasibility`. -/
def compositeScore (w : TopWeights) (d i a e : ℚ) : ℚ :=
  d * w.demand + i * w.infrastructure + a * w.accessibility +
    e * w.equity_feasibility

/-- The scored-table core of `calculate_composite_score`: the elementwise
weighted composite, zeroed for regions failing the minimal constraints
(`np.where(passes_minimum, composite, 0)`), stored next to the feasibility
boolean; one output row per input region. -/
def scoredTable (w : TopWeights) (demand infra access equity : List ℚ)
    (mask : List Bool) : List ScoredRow :=
  List.zipWith (fun c f => { composite := if f then c else 0, feasible := f })
    (zipWith4 (compositeScore w) demand infra access equity) mask

theorem scoredTable_length (w : TopWeights) :
    ∀ (demand infra access equity : List ℚ) (mask : List Bool),
      demand.length = mask.length → infra.length = mask.length →
      access.length = mask.length → equity.length = mask.length →
      (scoredTable w demand infra access equity mask).length = mask.length := by
  intro demand
  induction demand with
  | nil =>
    intro infra access equity mask h1 _ _ _
    cases mask with
    | nil => rfl
    | cons m ms => simp at h1
  | cons d ds ih =>
    intro infra access equity mask h1 h2 h3 h4
    cases mask with
    | nil => simp at h1
    | cons m ms =>
      cases infra with
      | nil => simp at h2
      | cons i is_ =>
        cases access with
        | nil => simp at h3
        | cons a as_ =>
          cases equity with
          | nil => simp at h4
          | cons e es =>
            simp only [scoredTable, zipWith4, List.zipWith_cons_cons,
              List.length_cons] at *
            rw [ih is_ as_ es ms (by omega) (by omega) (by omega) (by omega)]

theorem scoredTable_getD (w : TopWeights) :
    ∀ (demand infra access equity : List ℚ) (mask : List Bool) (k : ℕ),
      demand.length = mask.length → infra.length = mask.length →
      access.length = mask.length → equity.length = mask.length →
      k < mask.length →
      (scoredTable w demand infra access equity mask).getD k ⟨0, false⟩ =
        { composite :=
            (if mask.getD k false then
              compositeScore w (demand.getD k 0) (infra.getD k 0)
                (access.getD k 0) (equity.getD k 0)
            else 0),
          feasible := mask.getD k false } := by
  intro demand
  induction demand with
  | nil =>
    intro infra access equity mask k h1 _ _ _ hk
    cases mask with
    | nil => simp at hk
    | cons m ms => simp at h1
  | cons d ds ih =>
    intro infra access equity mask k h1 h2 h3 h4 hk
    cases mask with
    | nil => simp at hk
    | cons m ms =>
      cases infra with
      | nil => simp at h2
      | cons i is_ =>
        cases access with
        | nil => simp at h3
        | cons a as_ =>
          cases equity with
          | nil => simp at h4
          | cons e es =>
            cases k with
            | zero => rfl
            | succ k' =>
              simp only [scoredTable, zipWith4, List.zipWith_cons_cons,
                List.getD_cons_succ]
              simp only [List.length_cons] at h1 h2 h3 h4 hk
              exact ih is_ as_ es ms k' (by omega) (by omega) (by omega)
                (by omega) (by omega)

/-- **C1.** The composite score is the elementwise weighted sum
`demand*w_d + infrastructure*w_i + accessibility*w_a + equity*w_e`; a region
failing feasibility has composite exactly 0 while remaining a row of the
output table with its feasibility boolean; and with the category scores in
[0,100] (each scorer clips its output) and nonnegative top-level weights
summing to at most 1 (`run_analysis` normalizes them to sum to 1), every
feasible region's composite lies in [0,100]. -/
theorem C1_composite_formula_and_bounds (w : TopWeights)
    (demand infra access equity : List ℚ) (mask : List Bool)
    (hld : demand.length = mask.length) (hli : infra.length = mask.length)
    (hla : access.length = mask.length) (hle : equity.length = mask.length) :
    (scoredTable w demand infra access equity mask).length = mask.length ∧
    (∀ k : ℕ, k < mask.length →
      ((scoredTable w demand infra access equity mask).getD k
          ⟨0, false⟩).feasible = mask.getD k false ∧
      ((scoredTable w demand infra access equity mask).getD k
          ⟨0, false⟩).composite =
        (if mask.getD k false then
          demand.getD k 0 * w.demand + infra.getD k 0 * w.infrastructure +
            access.getD k 0 * w.accessibility +
            equity.getD k 0 * w.equity_feasibility
        else 0)) ∧
    (0 ≤ w.demand → 0 ≤ w.infrastructure → 0 ≤ w.accessibility →
     0 ≤ w.equity_feasibility →
     w.demand + w.infrastructure + w.accessibility + w.equity_feasibility ≤ 1 →
     (∀ x ∈ demand, 0 ≤ x ∧ x ≤ 100) → (∀ x ∈ infra, 0 ≤ x ∧ x ≤ 100) →
     (∀ x ∈ access, 0 ≤ x ∧ x ≤ 100) → (∀ x ∈ equity, 0 ≤ x ∧ x ≤ 100) →
     ∀ k : ℕ, k < mask.length →
       0 ≤ ((scoredTable w demand infra access equity mask).getD k
          ⟨0, false⟩).composite ∧
       ((scoredTable w demand infra access equity mask).getD k
          ⟨0, false⟩).composite ≤ 100) := by
  have hrow := fun k hk =>
    scoredTable_getD w demand infra access equity mask k hld hli hla hle hk
  refine ⟨scoredTable_length w demand infra access equity mask hld hli hla hle,
    ?_, ?_⟩
  · intro k hk
    rw [hrow k hk]
    exact ⟨rfl, rfl⟩
  · intro hwd hwi hwa hwe hwsum hbd hbi hba hbe k hk
    rw [hrow k hk]
    by_cases hmk : mask.getD k false
    · simp only [hmk, if_true]
      have hmem : ∀ (l : List ℚ), l.length = mask.length → l.getD k 0 ∈ l := by
        intro l hl
        rw [List.getD_eq_getElem?_getD,
          List.getElem?_eq_getElem (by omega : k < l.length)]
        exact List.getElem_mem _
      obtain ⟨hd0, hd1⟩ := hbd _ (hmem demand hld)
      obtain ⟨hi0, hi1⟩ := hbi _ (hmem infra hli)
      obtain ⟨ha0, ha1⟩ := hba _ (hmem access hla)
      obtain ⟨he0, he1⟩ := hbe _ (hmem equity hle)
      unfold compositeScore
      constructor
      · have p1 : 0 ≤ demand.getD k 0 * w.demand := mul_nonneg hd0 hwd
        have p2 : 0 ≤ infra.getD k 0 * w.infrastructure := mul_nonneg hi0 hwi
        have p3 : 0 ≤ access.getD k 0 * w.accessibility := mul_nonneg ha0 hwa
        have p4 : 0 ≤ equity.getD k 0 * w.equity_feasibility :=
          mul_nonneg he0 hwe
        linarith
      · have q1 : demand.getD k 0 * w.demand ≤ 100 * w.demand :=
          mul_le_mul_of_nonneg_right hd1 hwd
        have q2 : infra.getD k 0 * w.infrastructure ≤ 100 * w.infrastructure :=
          mul_le_mul_of_nonneg_right hi1 hwi
        have q3 : access.getD k 0 * w.accessibility ≤ 100 * w.accessibility :=
          mul_le_mul_of_nonneg_right ha1 hwa
        have q4 : equity.getD k 0 * w.equity_feasibility ≤
            100 * w.equity_feasibility :=
          mul_le_mul_of_nonneg_right he1 hwe
        linarith
    · simp only [hmk, if_false]
      norm_num

/-- Witness for C1 at a concrete two-region table with the default weights
(0.40 / 0.25 / 0.20 / 0.15), one feasible and one infeasible region: the
hypotheses hold and the feasible region's zeroed-or-weighted composite lies
in [0,100]. -/
theorem C1_witness :
    (([80, 60] : List ℚ).length = ([true, false] : List Bool).length) ∧
    ((0:ℚ) ≤ 2/5) ∧
    ((2:ℚ)/5 + 1/4 + 1/5 + 3/20 ≤ 1) ∧
    (∀ x ∈ ([80, 60] : List ℚ), 0 ≤ x ∧ x ≤ 100) ∧
    (0 ≤ ((scoredTable ⟨2/5, 1/4, 1/5, 3/20⟩ [80, 60] [50, 40] [90, 10]
        [50, 50] [true, false]).getD 0 ⟨0, false⟩).composite ∧
      ((scoredTable ⟨2/5, 1/4, 1/5, 3/20⟩ [80, 60] [50, 40] [90, 10]
        [50, 50] [true, false]).getD 0 ⟨0, false⟩).composite ≤ 100) := by
  have hb : ∀ x ∈ ([80, 60] : List ℚ), 0 ≤ x ∧ x ≤ 100 := by
    intro x hx
    simp only [List.mem_cons, List.not_mem_nil, or_false] at hx
    rcases hx with rfl | rfl <;> norm_num
  have hb2 : ∀ x ∈ ([50, 40] : List ℚ), 0 ≤ x ∧ x ≤ 100 := by
    intro x hx
    simp only [List.mem_cons, List.not_mem_nil, or_false] at hx
    rcases hx with rfl | rfl <;> norm_num
  have hb3 : ∀ x ∈ ([90, 10] : List ℚ), 0 ≤ x ∧ x ≤ 100 := by
    intro x hx
    simp only [List.mem_cons, List.not_mem_nil, or_false] at hx
    rcases hx with rfl | rfl <;> norm_num
  have hb4 : ∀ x ∈ ([50, 50] : List ℚ), 0 ≤ x ∧ x ≤ 100 := by
    intro x hx
    simp only [List.mem_cons, List.not_mem_nil, or_false] at hx
    rcases hx with rfl | rfl <;> norm_num
  refine ⟨rfl, by norm_num, by norm_num, hb, ?_⟩
  exact (C1_composite_formula_and_bounds ⟨2/5, 1/4, 1/5, 3/20⟩ [80, 60]
    [50, 40] [90, 10] [50, 50] [true, false] rfl rfl rfl rfl).2.2
    (by norm_num) (by norm_num) (by norm_num) (by norm_num) (by norm_num)
    hb hb2 hb3 hb4 0 (by decide)

/-! ## Site selector (`select_optimal_sites`) -/

/-- A scored candidate row as the selector consumes it: identifier,
composite score, feasibility flag, and centroid coordinates in degrees. -/
structure Cand where
  geoid : String
  composite : ℚ
  feasible : Bool
  cx : ℚ
  cy : ℚ

/-- Squared planar centroid distance in degrees.  The source compares the
planar Euclidean distance (shapely `.distance` between centroids) times 69
against the threshold; `farEnough` encodes that comparison on squares. -/
def sqDist (p q : Cand) : ℚ := (p.cx - q.cx)^2 + (p.cy - q.cy)^2

/-- The selector's acceptance test: the source skips a candidate when
`min(centroid distance × 69) < min_distance_mi` over the already selected
geometries.  For a nonnegative threshold this is exactly
`min_distance² ≤ 69² · sqDist` against every selected candidate, which
keeps the test executable over ℚ. -/
def farEnough (min_distance : ℚ) (c : Cand) (sel : List Cand) : Bool :=
  sel.all (fun g => min_distance^2 ≤ 69^2 * sqDist c g)

/-- The greedy loop of `select_optimal_sites`: walk the pool in order, stop
once `n_sites` are accepted, skip candidates failing `farEnough` against
the accepted list. -/
def greedyGo (min_distance : ℚ) (n_sites : ℕ) :
    List Cand → List Cand → List Cand
  | [], acc => acc
  | c :: pool, acc =>
    if n_sites ≤ acc.length then acc
    else if farEnough min_distance c acc then
      greedyGo min_distance n_sites pool (acc ++ [c])
    else greedyGo min_distance n_sites pool acc

/-- Descending insertion sort by composite score, modelling
`sort_values('composite_score', ascending=False)` (a deterministic order;
the claims do not depend on tie order). -/
def insertDesc (c : Cand) : List Cand → List Cand
  | [] => [c]
  | d :: ds => if d.composite < c.composite then c :: d :: ds
      else d :: insertDesc c ds

def sortByCompositeDesc (xs : List Cand) : List Cand := xs.foldr insertDesc []

/-- `select_optimal_sites`: restrict to feasible rows, sort by composite
descending, then select greedily under the separation constraint.  The
function is total: when fewer than `n_sites` candidates satisfy the
constraint it simply returns the shorter list (the source logs a warning
and returns; it never raises). -/
def select_optimal_sites (table : List Cand) (n_sites : ℕ)
    (min_distance : ℚ) : List Cand :=
  greedyGo min_distance n_sites
    (sortByCompositeDesc (table.filter (fun c => c.feasible))) []

theorem sqDist_comm (p q : Cand) : sqDist p q = sqDist q p := by
  unfold sqDist; ring

theorem greedyGo_pairwise (m : ℚ) (n : ℕ) :
    ∀ (pool acc : List Cand),
      List.Pairwise (fun p q => m^2 ≤ 69^2 * sqDist p q) acc →
      List.Pairwise (fun p q => m^2 ≤ 69^2 * sqDist p q)
        (greedyGo m n pool acc) := by
  intro pool
  induction pool with
  | nil => intro acc h; exact h
  | cons c pool ih =>
    intro acc hacc
    simp only [greedyGo]
    split
    · exact hacc
    · split
      · next hfar =>
        apply ih
        rw [List.pairwise_append]
        refine ⟨hacc, List.pairwise_singleton _ _, ?_⟩
        intro a ha b hb
        have hb' : b = c := List.mem_singleton.mp hb
        have hall := List.all_eq_true.mp hfar a ha
        have hc : m^2 ≤ 69^2 * sqDist c a := of_decide_eq_true hall
        rw [hb', sqDist_comm]
        exact hc
      · exact ih acc hacc

theorem greedyGo_length_le (m : ℚ) (n : ℕ) :
    ∀ (pool acc : List Cand), acc.length ≤ n →
      (greedyGo m n pool acc).length ≤ n := by
  intro pool
  induction pool with
  | nil => intro acc h; exact h
  | cons c pool ih =>
    intro acc h
    simp only [greedyGo]
    split
    · exact h
    · next hlt =>
      split
      · exact ih (acc ++ [c]) (by simp; omega)
      · exact ih acc h

/-- **C2.** Every pair of regions selected by `select_optimal_sites` is at
centroid distance (planar degree distance × 69 miles/degree) at least the
requested `min_distance`; and the selector is total with at most `n_sites`
results — when fewer candidates satisfy the constraint it returns the
shorter list rather than raising. -/
theorem C2_selection_separation (table : List Cand) (n_sites : ℕ) (m : ℚ)
    (hm : 0 ≤ m) :
    List.Pairwise
      (fun p q => (m:ℝ) ≤ 69 * Real.sqrt ((sqDist p q : ℚ) : ℝ))
      (select_optimal_sites table n_sites m) ∧
    (select_optimal_sites table n_sites m).length ≤ n_sites := by
  constructor
  · have hp := greedyGo_pairwise m n_sites
      (sortByCompositeDesc (table.filter (fun c => c.feasible))) []
      List.Pairwise.nil
    refine hp.imp ?_
    intro p q hpq
    have h1 : ((m:ℝ))^2 ≤ 69^2 * ((sqDist p q : ℚ) : ℝ) := by
      exact_mod_cast hpq
    calc (m:ℝ) = Real.sqrt ((m:ℝ)^2) :=
          (Real.sqrt_sq (by exact_mod_cast hm)).symm
      _ ≤ Real.sqrt (69^2 * ((sqDist p q : ℚ) : ℝ)) := Real.sqrt_le_sqrt h1
      _ = 69 * Real.sqrt ((sqDist p q : ℚ) : ℝ) := by
          rw [Real.sqrt_mul (by norm_num) _]
          congr 1
          rw [show ((69:ℝ)^2) = 69^2 from rfl, Real.sqrt_sq (by norm_num)]
  · exact greedyGo_length_le m n_sites _ [] (by simp)

/-- Witness for C2: two feasible candidates 3 miles apart (degree offset
3/69) with `min_distance = 10`; the selection satisfies the separation
invariant and has at most 2 elements. -/
theorem C2_witness :
    (0:ℚ) ≤ 10 ∧
    (List.Pairwise
      (fun p q => ((10:ℚ):ℝ) ≤ 69 * Real.sqrt ((sqDist p q : ℚ) : ℝ))
      (select_optimal_sites
        [⟨"A", 90, true, 0, 0⟩, ⟨"B", 80, true, 0, 3/69⟩] 2 10) ∧
    (select_optimal_sites
        [⟨"A", 90, true, 0, 0⟩, ⟨"B", 80, true, 0, 3/69⟩] 2 10).length ≤ 2) :=
  ⟨by norm_num,
   C2_selection_separation
     [⟨"A", 90, true, 0, 0⟩, ⟨"B", 80, true, 0, 3/69⟩] 2 10 (by norm_num)⟩

theorem greedyGo_extends_acc (m : ℚ) (n : ℕ) :
    ∀ (pool acc : List Cand), acc <+: greedyGo m n pool acc := by
  intro pool
  induction pool with
  | nil => intro acc; exact List.prefix_rfl
  | cons c pool ih =>
    intro acc
    simp only [greedyGo]
    split
    · exact List.prefix_rfl
    · split
      · exact (List.prefix_append acc [c]).trans (ih (acc ++ [c]))
      · exact ih acc

theorem greedyGo_prefix_mono (m : ℚ) :
    ∀ (pool acc : List Cand) (n₁ n₂ : ℕ), n₁ ≤ n₂ →
      greedyGo m n₁ pool acc <+: greedyGo m n₂ pool acc := by
  intro pool
  induction pool with
  | nil => intro acc n₁ n₂ _; exact List.prefix_rfl
  | cons c pool ih =>
    intro acc n₁ n₂ h12
    simp only [greedyGo]
    by_cases h1 : n₁ ≤ acc.length
    · rw [if_pos h1]
      by_cases h2 : n₂ ≤ acc.length
      · rw [if_pos h2]
      · rw [if_neg h2]
        split
        · exact (List.prefix_append acc [c]).trans
            (greedyGo_extends_acc m n₂ pool (acc ++ [c]))
        · exact greedyGo_extends_acc m n₂ pool acc
    · rw [if_neg h1, if_neg (by omega : ¬ n₂ ≤ acc.length)]
      split
      · exact ih (acc ++ [c]) n₁ n₂ h12
      · exact ih acc n₁ n₂ h12

/-- **C7.** Stable greedy prefix: with the scored table, feasibility,
scores and `min_distance` held fixed, increasing `n_sites` yields a
selection of which the previous selection is a prefix — the earlier picks
survive in the same rank order. -/
theorem C7_selection_prefix_monotone (table : List Cand) (m : ℚ)
    (n₁ n₂ : ℕ) (h : n₁ ≤ n₂) :
    select_optimal_sites table n₁ m <+: select_optimal_sites table n₂ m := by
  unfold select_optimal_sites
  exact greedyGo_prefix_mono m _ [] n₁ n₂ h

/-- Witness for C7: the two-candidate table with `n_sites` raised from 1
to 2. -/
theorem C7_witness :
    (1:ℕ) ≤ 2 ∧
    select_optimal_sites
        [⟨"A", 90, true, 0, 0⟩, ⟨"B", 80, true, 0, 1⟩] 1 10 <+:
      select_optimal_sites
        [⟨"A", 90, true, 0, 0⟩, ⟨"B", 80, true, 0, 1⟩] 2 10 :=
  ⟨by decide,
   C7_selection_prefix_monotone
     [⟨"A", 90, true, 0, 0⟩, ⟨"B", 80, true, 0, 1⟩] 10 1 2 (by decide)⟩

end SecondaryDash
